import Mathlib

set_option maxRecDepth 16000

/-!
Shallow embedding of the savvy-dca portfolio simulation engine.

The source of truth is the page-level controller (`handleSetup`,
`handleAddMoney`, `handleSimulateWeek`, `handleWithdraw` in the Index page)
together with the static strategy catalog and price table in
`frontend/src/lib/strategies.ts` and the strict-mode gate of
`frontend/src/components/WithdrawModal.tsx`.

JavaScript `Record<string, number>` objects are embedded as association
lists `List (String × ℚ)`; JavaScript numeric arithmetic is embedded as
exact rational arithmetic; `Math.random()` draws are passed in explicitly
as functions from coin symbol to a rational in `[0, 1)`; dates are embedded
as a day count (days since the Unix epoch, a Thursday) plus milliseconds
within the day.
-/

namespace Savvy

/-- A JavaScript `Record<string, number>` as an association list. -/
abbrev RecMap := List (String × ℚ)

/-- `m[k] || 0` style read: the value at key `k`, defaulting to 0. -/
def getD : RecMap → String → ℚ
  | [], _ => 0
  | p :: rest, k => if p.1 = k then p.2 else getD rest k

/-- `m[k] = v` style write: overwrite the entry at `k`, or append it. -/
def setK : RecMap → String → ℚ → RecMap
  | [], k, v => [(k, v)]
  | p :: rest, k, v =>
      if p.1 = k then (k, v) :: rest else p :: setK rest k v

/-- `Object.values(m).reduce((a, b) => a + b, 0)`. -/
def valuesSum (m : RecMap) : ℚ := (m.map Prod.snd).sum

/-- JavaScript `Math.round`: half-up rounding (toward +∞), as a rational. -/
def roundJS (x : ℚ) : ℚ := ((⌊x + 1/2⌋ : ℤ) : ℚ)

/-- A calendar instant: whole days since the Unix epoch plus milliseconds
within the day.  The epoch day (1970-01-01) was a Thursday, so JavaScript
`getDay()` is `(days + 4) % 7` (0 = Sunday). -/
structure SimDate where
  days : ℤ
  msOfDay : ℕ
deriving DecidableEq, Repr

/-- JavaScript `Date.prototype.getDay` for our date embedding. -/
def SimDate.getDay (d : SimDate) : ℤ := (d.days + 4) % 7

/-- A catalog strategy from `frontend/src/lib/strategies.ts`. -/
structure Strategy where
  id : String
  name : String
  creator : String
  username : String
  followers : String
  bio : String
  avatar : String
  allocation : RecMap
  return12mo : ℚ
  riskLevel : String
  winRate : ℚ
deriving DecidableEq, Repr

/-- The static strategy catalog (`strategies` in `strategies.ts`). -/
def strategies : List Strategy :=
  [ { id := "safestack", name := "SafeStack", creator := "CryptoSara",
      username := "@cryptosara", followers := "2.4k",
      bio := "Conservative long-term DCA", avatar := "s",
      allocation := [("BTC", 50), ("ETH", 30), ("USDC", 20)],
      return12mo := 42, riskLevel := "Low", winRate := 89 },
    { id := "moonbag", name := "MoonBag", creator := "DeFiDave",
      username := "@defidave", followers := "890",
      bio := "High risk, high reward altcoins", avatar := "r",
      allocation := [("SOL", 40), ("AVAX", 30), ("MATIC", 30)],
      return12mo := 127, riskLevel := "High", winRate := 67 },
    { id := "maxibtc", name := "MaxiBTC", creator := "BitcoinBella",
      username := "@bitcoinbella", followers := "5.1k",
      bio := "Bitcoin maximalist approach", avatar := "b",
      allocation := [("BTC", 100)],
      return12mo := 38, riskLevel := "Medium", winRate := 82 } ]

/-- The static price table (`cryptoPrices` in `strategies.ts`). -/
def cryptoPrices : RecMap :=
  [("BTC", 97000), ("ETH", 3600), ("USDC", 1), ("SOL", 230),
   ("AVAX", 45), ("MATIC", 11/20)]

/-- `cryptoPrices[coin] || 1`: the table price, falling through to 1 when
the key is absent or the stored price is the falsy value 0. -/
def jsPrice (coin : String) : ℚ :=
  match cryptoPrices.find? (fun p => p.1 == coin) with
  | some p => if p.2 = 0 then 1 else p.2
  | none => 1

/-- The strategy slice of `PortfolioData` (`portfolio.strategy`). -/
structure StrategyState where
  id : String
  name : String
  creator : String
  allocation : RecMap
  weeklyAmount : ℚ
  weeksCompleted : ℕ
  totalWeeks : Option ℕ
  strictMode : Bool
deriving DecidableEq, Repr

/-- The holdings slice of `PortfolioData` (`portfolio.portfolio`). -/
structure PortfolioInner where
  holdings : RecMap
  holdingsValue : RecMap
  holdingsChange : RecMap
  totalValue : ℚ
  costBasis : ℚ
  profitLoss : ℚ
  profitLossPercent : ℚ
deriving DecidableEq, Repr

/-- `PortfolioData` from `strategies.ts`. -/
structure PortfolioData where
  hasStrategy : Bool
  strategy : Option StrategyState
  portfolio : PortfolioInner
  nextDCA : SimDate
  dcaPoolBalance : ℚ
deriving DecidableEq, Repr

/-- A ledger entry (`Transaction` in `strategies.ts`). -/
structure Transaction where
  week : ℕ
  date : SimDate
  purchased : RecMap
  gasSpent : ℚ
  txHash : String
deriving DecidableEq, Repr

/-- The whole engine state: the `portfolio` React state plus the
`transactions` ledger state. -/
structure AppState where
  portfolio : PortfolioData
  transactions : List Transaction
deriving DecidableEq, Repr

/-- The empty holdings block used at initialization and at setup. -/
def emptyInner : PortfolioInner :=
  { holdings := [], holdingsValue := [], holdingsChange := [],
    totalValue := 0, costBasis := 0, profitLoss := 0,
    profitLossPercent := 0 }

/-- The default portfolio built when local storage is empty: no strategy,
empty holdings, `nextDCA` three days from now, zero pool. -/
def initialAppState (now : SimDate) : AppState :=
  { portfolio :=
      { hasStrategy := false, strategy := none, portfolio := emptyInner,
        nextDCA := { days := now.days + 3, msOfDay := now.msOfDay },
        dcaPoolBalance := 0 },
    transactions := [] }

/-- `getNextMonday` from the Index page: the next Monday strictly after
today, at 09:00:00.000 local time. -/
def getNextMonday (now : SimDate) : SimDate :=
  let dayOfWeek := now.getDay
  let daysUntilMonday : ℤ := if dayOfWeek = 0 then 1 else 8 - dayOfWeek
  { days := now.days + daysUntilMonday, msOfDay := 9 * 60 * 60 * 1000 }

/-- The argument record of `handleSetup`. -/
structure SetupConfig where
  strategyId : String
  weeklyAmount : ℚ
  duration : Option ℕ
  strictMode : Bool
deriving DecidableEq, Repr

/-- `handleSetup` from the Index page: look the strategy up in the static
catalog (silently returning on a miss), then replace the `portfolio` state
with a fresh strategy, empty holdings, a five-week pool seed and the next
Monday as the next DCA date.  The `transactions` state is not touched. -/
def handleSetup (config : SetupConfig) (now : SimDate) (st : AppState) :
    AppState :=
  match strategies.find? (fun s => s.id == config.strategyId) with
  | none => st
  | some strategy =>
      { st with portfolio :=
          { hasStrategy := true,
            strategy := some
              { id := strategy.id, name := strategy.name,
                creator := strategy.creator,
                allocation := strategy.allocation,
                weeklyAmount := config.weeklyAmount,
                weeksCompleted := 0,
                totalWeeks := config.duration,
                strictMode := config.strictMode },
            portfolio := emptyInner,
            nextDCA := getNextMonday now,
            dcaPoolBalance := config.weeklyAmount * 5 } }

/-- `handleAddMoney` from the Index page: credit the DCA pool. -/
def handleAddMoney (amount : ℚ) (st : AppState) : AppState :=
  { st with portfolio :=
      { st.portfolio with
        dcaPoolBalance := st.portfolio.dcaPoolBalance + amount } }

/-- `handleWithdraw` from the Index page: clamp `totalValue - amount` at 0
and store it; no other field is touched. -/
def handleWithdraw (amount : ℚ) (st : AppState) : AppState :=
  { st with portfolio :=
      { st.portfolio with portfolio :=
          { st.portfolio.portfolio with
            totalValue :=
              max 0 (st.portfolio.portfolio.totalValue - amount) } } }

/-- `strategy.totalWeeks || 52`: the effective horizon used for milestone
progress, defaulting to 52 when `totalWeeks` is null (or the falsy 0). -/
def effectiveTotalWeeks (tw : Option ℕ) : ℕ :=
  match tw with
  | some n => if n = 0 then 52 else n
  | none => 52

/-- The milestone progress percentage after a tick:
`(newWeeksCompleted / totalWeeks) * 100`. -/
def progressPct (newWeeks : ℕ) (tw : Option ℕ) : ℚ :=
  (newWeeks : ℚ) / (effectiveTotalWeeks tw : ℚ) * 100

/-- The milestone if/else chain in `handleSimulateWeek`: first match wins,
ascending 25, 50, 75 on the window `[T, T+1)` and then 100 on `>= 100`. -/
def milestoneFor (newWeeks : ℕ) (tw : Option ℕ) : Option ℕ :=
  if 25 ≤ progressPct newWeeks tw ∧ progressPct newWeeks tw < 26 then
    some 25
  else if 50 ≤ progressPct newWeeks tw ∧ progressPct newWeeks tw < 51 then
    some 50
  else if 75 ≤ progressPct newWeeks tw ∧ progressPct newWeeks tw < 76 then
    some 75
  else if 100 ≤ progressPct newWeeks tw then
    some 100
  else none

/-- Accumulator of the per-coin purchase loop: the in-progress
`newHoldings`, `newHoldingsValue`, `newHoldingsChange` and `purchased`
records. -/
abbrev BuyAcc := RecMap × RecMap × RecMap × RecMap

/-- One iteration of the `Object.entries(strategy.allocation).forEach`
loop in `handleSimulateWeek`.  `slip` is the `Math.random()` draw used for
the adjusted (execution) price and `drift` the draw used for the valuation
movement, both passed per coin. -/
def buyStep (weeklyAmount : ℚ) (slip drift : String → ℚ) (acc : BuyAcc)
    (entry : String × ℚ) : BuyAcc :=
  let (nh, nhv, nhc, pur) := acc
  let coin := entry.1
  let percent := entry.2
  let gasForCoin := weeklyAmount * (percent / 100)
  let price := jsPrice coin
  let adjustedPrice := price * (1 + (slip coin - 1/2) * (1/10))
  let coinAmount := gasForCoin / adjustedPrice
  let newAmt := getD nh coin + coinAmount
  let nh2 := setK nh coin newAmt
  let pur2 := setK pur coin coinAmount
  let priceChange := (drift coin - 3/10) * (1/10)
  let nhv2 := setK nhv coin (newAmt * adjustedPrice * (1 + priceChange))
  let nhc2 := setK nhc coin (priceChange * 100)
  (nh2, nhv2, nhc2, pur2)

/-- The quantity of `coin` bought in one tick: the coin's share of the
weekly amount divided by its randomly adjusted execution price.  This is
the closed form of `coinAmount` inside `buyStep`. -/
def coinAmountOf (weeklyAmount : ℚ) (slip : String → ℚ) (coin : String)
    (percent : ℚ) : ℚ :=
  (weeklyAmount * (percent / 100)) /
    (jsPrice coin * (1 + (slip coin - 1/2) * (1/10)))

/-- Result discriminator of `handleSimulateWeek`: the handler bails out
when no strategy is active, refuses on insufficient funds, and otherwise
completes carrying the (at most one) milestone signal it raised. -/
inductive TickResult where
  | noStrategy
  | insufficientFunds
  | ok (milestone : Option ℕ)
deriving DecidableEq, Repr

/-- The state produced by a funded `handleSimulateWeek` run with active
strategy `strategy`: run the per-coin purchase loop, recompute the
bookkeeping, debit the pool, advance the week counter and the next DCA
date, and prepend the new ledger entry. -/
def tickNewState (slip drift : String → ℚ) (txHash : String) (now : SimDate)
    (st : AppState) (strategy : StrategyState) : AppState :=
  let weeklyAmount := strategy.weeklyAmount
  let p := st.portfolio.portfolio
  let bought :=
    strategy.allocation.foldl (buyStep weeklyAmount slip drift)
      (p.holdings, p.holdingsValue, p.holdingsChange, [])
  let newHoldings := bought.1
  let newHoldingsValue := bought.2.1
  let newHoldingsChange := bought.2.2.1
  let purchased := bought.2.2.2
  let newCostBasis := p.costBasis + weeklyAmount
  let newTotalValue := valuesSum newHoldingsValue
  let newProfitLoss := newTotalValue - newCostBasis
  let newProfitLossPercent :=
    if 0 < newCostBasis then newProfitLoss / newCostBasis * 100 else 0
  let newWeeksCompleted := strategy.weeksCompleted + 1
  let newTransaction : Transaction :=
    { week := newWeeksCompleted, date := now, purchased := purchased,
      gasSpent := weeklyAmount, txHash := txHash }
  { portfolio :=
      { hasStrategy := st.portfolio.hasStrategy,
        strategy := some
          { strategy with weeksCompleted := newWeeksCompleted },
        portfolio :=
          { holdings := newHoldings,
            holdingsValue := newHoldingsValue,
            holdingsChange := newHoldingsChange,
            totalValue := roundJS newTotalValue,
            costBasis := newCostBasis,
            profitLoss := newProfitLoss,
            profitLossPercent := newProfitLossPercent },
        nextDCA := getNextMonday now,
        dcaPoolBalance := st.portfolio.dcaPoolBalance - weeklyAmount },
    transactions := newTransaction :: st.transactions }

/-- `handleSimulateWeek` from the Index page.  Random draws are explicit:
`slip coin` and `drift coin` stand for the two `Math.random()` calls made
for each coin, and `txHash` for the random hash string. -/
def handleSimulateWeek (slip drift : String → ℚ) (txHash : String)
    (now : SimDate) (st : AppState) : TickResult × AppState :=
  match st.portfolio.strategy with
  | none => (.noStrategy, st)
  | some strategy =>
      if st.portfolio.dcaPoolBalance < strategy.weeklyAmount then
        (.insufficientFunds, st)
      else
        (.ok (milestoneFor (strategy.weeksCompleted + 1)
            strategy.totalWeeks),
         tickNewState slip drift txHash now st strategy)

/-- Outcome of the withdraw flow as gated by `WithdrawModal`. -/
inductive WithdrawOutcome where
  | noStrategy
  | strictModeBlocked
  | completed
deriving DecidableEq, Repr

/-- The withdraw operation as wired in the Index page: the modal is only
rendered when a strategy exists, renders a blocked dialog (never invoking
`onWithdraw`) when `strictMode` is set, and otherwise hands the amount to
`handleWithdraw`. -/
def withdrawOp (amount : ℚ) (st : AppState) : WithdrawOutcome × AppState :=
  match st.portfolio.strategy with
  | none => (.noStrategy, st)
  | some s =>
      if s.strictMode then (.strictModeBlocked, st)
      else (.completed, handleWithdraw amount st)

/-- The engine operations that touch the DCA pool: strategy activation,
the weekly tick, and funding. -/
inductive Op where
  | activate (config : SetupConfig) (now : SimDate)
  | tick (slip drift : String → ℚ) (txHash : String) (now : SimDate)
  | addFunds (amount : ℚ)

/-- Apply one operation to the engine state. -/
def applyOp (st : AppState) : Op → AppState
  | .activate config now => handleSetup config now st
  | .tick slip drift txHash now =>
      (handleSimulateWeek slip drift txHash now st).2
  | .addFunds amount => handleAddMoney amount st

/-- Argument discipline for a pool-safety run: activations carry a
nonnegative weekly amount and funding amounts are positive. -/
def OpOK : Op → Prop
  | .activate config _ => 0 ≤ config.weeklyAmount
  | .tick _ _ _ _ => True
  | .addFunds amount => 0 < amount

/-! ### Concrete sample data used by witnesses and counterexamples -/

/-- A fixed sample instant: day 20000 since the epoch, a Friday. -/
def d0 : SimDate := { days := 20000, msOfDay := 0 }

/-- A valid setup request: SafeStack, 100 GAS/week, 52 weeks, strict. -/
def cfgSafe : SetupConfig :=
  { strategyId := "safestack", weeklyAmount := 100, duration := some 52,
    strictMode := true }

/-- A setup request with weekly amount 0 (not strictly positive). -/
def cfgZero : SetupConfig :=
  { strategyId := "safestack", weeklyAmount := 0, duration := some 52,
    strictMode := true }

/-- A setup request with a negative weekly amount. -/
def cfgNeg : SetupConfig :=
  { strategyId := "safestack", weeklyAmount := -10, duration := some 52,
    strictMode := true }

/-- A setup request with an id missing from the catalog. -/
def cfgUnknown : SetupConfig :=
  { strategyId := "degenyolo", weeklyAmount := 100, duration := some 52,
    strictMode := true }

/-- The strategy state planted by `cfgSafe`. -/
def stratSafe0 : StrategyState :=
  { id := "safestack", name := "SafeStack", creator := "CryptoSara",
    allocation := [("BTC", 50), ("ETH", 30), ("USDC", 20)],
    weeklyAmount := 100, weeksCompleted := 0, totalWeeks := some 52,
    strictMode := true }

/-- The state right after activating SafeStack at 100 GAS/week. -/
def stActive : AppState := handleSetup cfgSafe d0 (initialAppState d0)

/-- A constant slippage draw of exactly one half (no price adjustment). -/
def slipHalf : String → ℚ := fun _ => 1/2

/-- A drift draw giving USDC a 0.5% move and every other coin none. -/
def driftMixed : String → ℚ := fun c => if c = "USDC" then 7/20 else 3/10

/-- The state after one funded tick from `stActive`. -/
def stTicked : AppState :=
  (handleSimulateWeek slipHalf driftMixed "0xabc" d0 stActive).2

/-- A non-strict strategy used by the withdraw scenarios. -/
def stratLoose : StrategyState :=
  { id := "safestack", name := "SafeStack", creator := "CryptoSara",
    allocation := [("BTC", 50), ("ETH", 30), ("USDC", 20)],
    weeklyAmount := 100, weeksCompleted := 3, totalWeeks := some 52,
    strictMode := false }

/-- A non-strict state with holdings valued at 30 + 20 and totalValue 50. -/
def stLoose : AppState :=
  { portfolio :=
      { hasStrategy := true, strategy := some stratLoose,
        portfolio :=
          { holdings := [("BTC", 1/4000), ("ETH", 1/200)],
            holdingsValue := [("BTC", 30), ("ETH", 20)],
            holdingsChange := [("BTC", 2), ("ETH", -1)],
            totalValue := 50, costBasis := 300, profitLoss := -250,
            profitLossPercent := -250/3 },
        nextDCA := d0, dcaPoolBalance := 200 },
    transactions := [] }

/-- A strict state whose pool (50) is below its weekly amount (100). -/
def stLow : AppState :=
  { portfolio :=
      { hasStrategy := true, strategy := some stratSafe0,
        portfolio := emptyInner,
        nextDCA := d0, dcaPoolBalance := 50 },
    transactions := [] }

/-! ### Association-list lemmas -/

theorem getD_setK (m : RecMap) (k k' : String) (v : ℚ) :
    getD (setK m k v) k' = if k' = k then v else getD m k' := by
  induction m with
  | nil =>
    by_cases h : k' = k <;> simp [setK, getD, h, Ne.symm]
  | cons p rest ih =>
    by_cases hpk : p.1 = k
    · by_cases h : k' = k <;>
        simp [setK, getD, hpk, h, hpk.symm.trans, Ne.symm]
    · by_cases hpc : p.1 = k'
      · have : ¬ k' = k := fun hc => hpk (hpc.trans hc)
        simp [setK, getD, hpk, hpc, this]
      · simp [setK, getD, hpk, hpc, ih]

theorem getD_setK_self (m : RecMap) (k : String) (v : ℚ) :
    getD (setK m k v) k = v := by
  simp [getD_setK]

theorem getD_setK_ne (m : RecMap) (k k' : String) (v : ℚ) (h : k' ≠ k) :
    getD (setK m k v) k' = getD m k' := by
  simp [getD_setK, h]

/-! ### Price-table lemmas -/

theorem jsPrice_pos (coin : String) : 0 < jsPrice coin := by
  unfold jsPrice
  cases h : cryptoPrices.find? (fun p => p.1 == coin) with
  | none => norm_num
  | some pr =>
    have hm := List.mem_of_find?_eq_some h
    by_cases h0 : pr.2 = 0
    · simp [h0]
    · simp only [if_neg h0]
      simp only [cryptoPrices, List.mem_cons, List.not_mem_nil, or_false]
        at hm
      rcases hm with h1 | h1 | h1 | h1 | h1 | h1 <;> rw [h1] <;> norm_num

theorem execPrice_lower (coin : String) (r : ℚ) (h0 : 0 ≤ r) :
    95/100 * jsPrice coin ≤ jsPrice coin * (1 + (r - 1/2) * (1/10)) := by
  have hp := jsPrice_pos coin
  nlinarith

theorem execPrice_upper (coin : String) (r : ℚ) (h1 : r < 1) :
    jsPrice coin * (1 + (r - 1/2) * (1/10)) ≤ 105/100 * jsPrice coin := by
  have hp := jsPrice_pos coin
  nlinarith

theorem execPrice_pos (coin : String) (r : ℚ) (h0 : 0 ≤ r) :
    0 < jsPrice coin * (1 + (r - 1/2) * (1/10)) := by
  have hp := jsPrice_pos coin
  nlinarith

theorem coinAmountOf_nonneg (w : ℚ) (slip : String → ℚ) (coin : String)
    (pct : ℚ) (hw : 0 ≤ w) (hp : 0 ≤ pct) (h0 : 0 ≤ slip coin) :
    0 ≤ coinAmountOf w slip coin pct := by
  unfold coinAmountOf
  apply div_nonneg
  · have : (0:ℚ) ≤ pct / 100 := by positivity
    exact mul_nonneg hw this
  · exact le_of_lt (execPrice_pos coin (slip coin) h0)

/-! ### Purchase-loop lemmas -/

theorem buyStep_fst (w : ℚ) (slip drift : String → ℚ) (acc : BuyAcc)
    (e : String × ℚ) :
    (buyStep w slip drift acc e).1
      = setK acc.1 e.1 (getD acc.1 e.1 + coinAmountOf w slip e.1 e.2) :=
  rfl

theorem foldl_buyStep_fst_of_not_mem (w : ℚ) (slip drift : String → ℚ)
    (alloc : List (String × ℚ)) (acc : BuyAcc) (coin : String)
    (h : coin ∉ alloc.map Prod.fst) :
    getD (alloc.foldl (buyStep w slip drift) acc).1 coin
      = getD acc.1 coin := by
  induction alloc generalizing acc with
  | nil => rfl
  | cons e rest ih =>
    simp only [List.map_cons, List.mem_cons, not_or] at h
    rw [List.foldl_cons, ih _ h.2, buyStep_fst,
      getD_setK_ne _ _ _ _ h.1]

theorem foldl_buyStep_fst_of_mem (w : ℚ) (slip drift : String → ℚ)
    (alloc : List (String × ℚ)) (acc : BuyAcc) (coin : String) (pct : ℚ)
    (hnd : (alloc.map Prod.fst).Nodup) (hmem : (coin, pct) ∈ alloc) :
    getD (alloc.foldl (buyStep w slip drift) acc).1 coin
      = getD acc.1 coin + coinAmountOf w slip coin pct := by
  induction alloc generalizing acc with
  | nil => cases hmem
  | cons e rest ih =>
    rw [List.map_cons, List.nodup_cons] at hnd
    rw [List.foldl_cons]
    rcases List.mem_cons.mp hmem with heq | hmem'
    · have he : e = (coin, pct) := heq.symm
      subst he
      rw [foldl_buyStep_fst_of_not_mem _ _ _ _ _ _ hnd.1, buyStep_fst,
        getD_setK_self]
    · have hne : coin ≠ e.1 := by
        intro hc
        exact hnd.1 (hc ▸ List.mem_map_of_mem Prod.fst hmem')
      rw [ih _ hnd.2 hmem', buyStep_fst, getD_setK_ne _ _ _ _ hne]

theorem foldl_buyStep_fst_mono (w : ℚ) (slip drift : String → ℚ)
    (alloc : List (String × ℚ)) (acc : BuyAcc) (hw : 0 ≤ w)
    (hok : ∀ e ∈ alloc, 0 ≤ e.2 ∧ 0 ≤ slip e.1) (coin : String) :
    getD acc.1 coin ≤ getD (alloc.foldl (buyStep w slip drift) acc).1 coin := by
  induction alloc generalizing acc with
  | nil => exact le_refl _
  | cons e rest ih =>
    rw [List.foldl_cons]
    refine le_trans ?_ (ih _ (fun x hx => hok x (List.mem_cons_of_mem _ hx)))
    rw [buyStep_fst, getD_setK]
    split
    · next hc =>
        have hnn := coinAmountOf_nonneg w slip e.1 e.2 hw
          (hok e (List.mem_cons_self _ _)).1 (hok e (List.mem_cons_self _ _)).2
        rw [hc]
        linarith
    · exact le_refl _

/-! ### Weekly-tick unfolding lemmas -/

theorem handleSimulateWeek_of_insufficient (slip drift : String → ℚ)
    (tx : String) (now : SimDate) (st : AppState) (s : StrategyState)
    (hs : st.portfolio.strategy = some s)
    (hlt : st.portfolio.dcaPoolBalance < s.weeklyAmount) :
    handleSimulateWeek slip drift tx now st = (.insufficientFunds, st) := by
  simp [handleSimulateWeek, hs, hlt]

theorem handleSimulateWeek_of_funded (slip drift : String → ℚ)
    (tx : String) (now : SimDate) (st : AppState) (s : StrategyState)
    (hs : st.portfolio.strategy = some s)
    (hge : s.weeklyAmount ≤ st.portfolio.dcaPoolBalance) :
    handleSimulateWeek slip drift tx now st
      = (.ok (milestoneFor (s.weeksCompleted + 1) s.totalWeeks),
         tickNewState slip drift tx now st s) := by
  simp [handleSimulateWeek, hs, not_lt.mpr hge]

theorem tickNewState_holdings (slip drift : String → ℚ) (tx : String)
    (now : SimDate) (st : AppState) (s : StrategyState) :
    (tickNewState slip drift tx now st s).portfolio.portfolio.holdings
      = (s.allocation.foldl (buyStep s.weeklyAmount slip drift)
          (st.portfolio.portfolio.holdings,
           st.portfolio.portfolio.holdingsValue,
           st.portfolio.portfolio.holdingsChange, [])).1 :=
  rfl

theorem tickNewState_holdingsValue (slip drift : String → ℚ) (tx : String)
    (now : SimDate) (st : AppState) (s : StrategyState) :
    (tickNewState slip drift tx now st s).portfolio.portfolio.holdingsValue
      = (s.allocation.foldl (buyStep s.weeklyAmount slip drift)
          (st.portfolio.portfolio.holdings,
           st.portfolio.portfolio.holdingsValue,
           st.portfolio.portfolio.holdingsChange, [])).2.1 :=
  rfl

theorem tickNewState_totalValue (slip drift : String → ℚ) (tx : String)
    (now : SimDate) (st : AppState) (s : StrategyState) :
    (tickNewState slip drift tx now st s).portfolio.portfolio.totalValue
      = roundJS (valuesSum (tickNewState slip drift
          tx now st s).portfolio.portfolio.holdingsValue) :=
  rfl

/-! ### Claim theorems -/

/-- C1: from every state with an active strategy and
`dcaPoolBalance >= weeklyAmount`, the weekly tick increases `costBasis` by
exactly `weeklyAmount`, increments `weeksCompleted` by exactly 1, and
prepends exactly one transaction whose `week` equals the new
`weeksCompleted` and whose `gasSpent` equals `weeklyAmount` — for every
value of the random slippage and drift draws. -/
theorem weeklyTick_bookkeeping (slip drift : String → ℚ) (tx : String)
    (now : SimDate) (st : AppState) (s : StrategyState)
    (hs : st.portfolio.strategy = some s)
    (hge : s.weeklyAmount ≤ st.portfolio.dcaPoolBalance) :
    (handleSimulateWeek slip drift tx now st).2.portfolio.portfolio.costBasis
        = st.portfolio.portfolio.costBasis + s.weeklyAmount
    ∧ (∃ s', (handleSimulateWeek slip drift tx now st).2.portfolio.strategy
          = some s' ∧ s'.weeksCompleted = s.weeksCompleted + 1)
    ∧ ∃ t, (handleSimulateWeek slip drift tx now st).2.transactions
          = t :: st.transactions
        ∧ t.week = s.weeksCompleted + 1 ∧ t.gasSpent = s.weeklyAmount := by
  rw [handleSimulateWeek_of_funded slip drift tx now st s hs hge]
  exact ⟨rfl, ⟨_, rfl, rfl⟩, _, rfl, rfl, rfl⟩

/-- Witness for C1 at the freshly activated SafeStack state. -/
theorem weeklyTick_bookkeeping_witness :
    stActive.portfolio.strategy = some stratSafe0
    ∧ stratSafe0.weeklyAmount ≤ stActive.portfolio.dcaPoolBalance
    ∧ (stTicked.portfolio.portfolio.costBasis
        = stActive.portfolio.portfolio.costBasis + stratSafe0.weeklyAmount
      ∧ (∃ s', stTicked.portfolio.strategy = some s'
          ∧ s'.weeksCompleted = stratSafe0.weeksCompleted + 1)
      ∧ ∃ t, stTicked.transactions = t :: stActive.transactions
          ∧ t.week = stratSafe0.weeksCompleted + 1
          ∧ t.gasSpent = stratSafe0.weeklyAmount) :=
  ⟨by with_unfolding_all decide, by with_unfolding_all decide,
    weeklyTick_bookkeeping slipHalf driftMixed "0xabc" d0 stActive stratSafe0
      (by with_unfolding_all decide) (by with_unfolding_all decide)⟩

/-- C3: whenever the active strategy has `strictMode` set, the withdraw
flow is refused with the strict-mode-blocked outcome and the state is
returned entirely unchanged, for every amount and every completion
state. -/
theorem withdraw_strictModeBlocked (amount : ℚ) (st : AppState)
    (s : StrategyState) (hs : st.portfolio.strategy = some s)
    (hstrict : s.strictMode = true) :
    withdrawOp amount st = (.strictModeBlocked, st) := by
  simp [withdrawOp, hs, hstrict]

/-- Witness for C3 at the strict SafeStack state, amount 0. -/
theorem withdraw_strictModeBlocked_witness :
    stActive.portfolio.strategy = some stratSafe0
    ∧ stratSafe0.strictMode = true
    ∧ withdrawOp 0 stActive = (.strictModeBlocked, stActive) :=
  ⟨by with_unfolding_all decide, by with_unfolding_all decide,
    withdraw_strictModeBlocked 0 stActive stratSafe0 (by with_unfolding_all decide) (by with_unfolding_all decide)⟩

/-- C10: for every non-strict state and every amount, the withdraw flow
completes, stores `max 0 (totalValue - amount)` as the new `totalValue`
(so it never goes negative), and leaves every other field — holdings,
holdingsValue, holdingsChange, costBasis, profitLoss, profitLossPercent,
the strategy, the pool, the next DCA date and the ledger — unchanged. -/
theorem withdraw_frame (amount : ℚ) (st : AppState) (s : StrategyState)
    (hs : st.portfolio.strategy = some s)
    (hstrict : s.strictMode = false) :
    (withdrawOp amount st).1 = .completed
    ∧ (withdrawOp amount st).2.portfolio.portfolio.totalValue
        = max 0 (st.portfolio.portfolio.totalValue - amount)
    ∧ 0 ≤ (withdrawOp amount st).2.portfolio.portfolio.totalValue
    ∧ (withdrawOp amount st).2.portfolio.portfolio.holdings
        = st.portfolio.portfolio.holdings
    ∧ (withdrawOp amount st).2.portfolio.portfolio.holdingsValue
        = st.portfolio.portfolio.holdingsValue
    ∧ (withdrawOp amount st).2.portfolio.portfolio.holdingsChange
        = st.portfolio.portfolio.holdingsChange
    ∧ (withdrawOp amount st).2.portfolio.portfolio.costBasis
        = st.portfolio.portfolio.costBasis
    ∧ (withdrawOp amount st).2.portfolio.portfolio.profitLoss
        = st.portfolio.portfolio.profitLoss
    ∧ (withdrawOp amount st).2.portfolio.portfolio.profitLossPercent
        = st.portfolio.portfolio.profitLossPercent
    ∧ (withdrawOp amount st).2.portfolio.strategy = st.portfolio.strategy
    ∧ (withdrawOp amount st).2.portfolio.hasStrategy
        = st.portfolio.hasStrategy
    ∧ (withdrawOp amount st).2.portfolio.dcaPoolBalance
        = st.portfolio.dcaPoolBalance
    ∧ (withdrawOp amount st).2.portfolio.nextDCA = st.portfolio.nextDCA
    ∧ (withdrawOp amount st).2.transactions = st.transactions := by
  have h : withdrawOp amount st = (.completed, handleWithdraw amount st) := by
    simp [withdrawOp, hs, hstrict]
  rw [h]
  refine ⟨rfl, rfl, le_max_left _ _, rfl, rfl, rfl, rfl, rfl, rfl, rfl, rfl,
    rfl, rfl, rfl⟩

/-- Witness for C10 at the non-strict state, amount 30. -/
theorem withdraw_frame_witness :
    stLoose.portfolio.strategy = some stratLoose
    ∧ stratLoose.strictMode = false
    ∧ ((withdrawOp 30 stLoose).1 = .completed
      ∧ (withdrawOp 30 stLoose).2.portfolio.portfolio.totalValue
          = max 0 (stLoose.portfolio.portfolio.totalValue - 30)) :=
  ⟨by with_unfolding_all decide, by with_unfolding_all decide,
    ⟨(withdraw_frame 30 stLoose stratLoose (by with_unfolding_all decide) (by with_unfolding_all decide)).1,
     (withdraw_frame 30 stLoose stratLoose (by with_unfolding_all decide) (by with_unfolding_all decide)).2.1⟩⟩

/-- C5 fails as stated: with strict mode off and `totalValue = 50`, a
withdrawal of 200 > 50 is not rejected — it completes and changes
`totalValue` (to 0).  There is no exceeds-value check anywhere in the
withdraw path. -/
theorem withdrawExceeds_counterexample :
    stLoose.portfolio.portfolio.totalValue = 50
    ∧ (50:ℚ) < 200
    ∧ (withdrawOp 200 stLoose).1 = .completed
    ∧ (withdrawOp 200 stLoose).2.portfolio.portfolio.totalValue = 0 := by
  refine ⟨by with_unfolding_all decide, by norm_num,
    by with_unfolding_all decide, by with_unfolding_all decide⟩

/-- C5 amended: for every non-strict state and every amount strictly
greater than the current `totalValue`, the withdrawal is not rejected —
no exceeds-value condition exists.  It completes, clamps `totalValue` to
0 (`max 0 (totalValue - amount)`), and leaves every other field
unchanged. -/
theorem withdraw_overdraw_clamps (amount : ℚ) (st : AppState)
    (s : StrategyState) (hs : st.portfolio.strategy = some s)
    (hstrict : s.strictMode = false)
    (hgt : st.portfolio.portfolio.totalValue < amount) :
    (withdrawOp amount st).1 = .completed
    ∧ (withdrawOp amount st).2.portfolio.portfolio.totalValue = 0
    ∧ (withdrawOp amount st).2.portfolio.portfolio.holdings
        = st.portfolio.portfolio.holdings
    ∧ (withdrawOp amount st).2.portfolio.portfolio.holdingsValue
        = st.portfolio.portfolio.holdingsValue
    ∧ (withdrawOp amount st).2.portfolio.portfolio.costBasis
        = st.portfolio.portfolio.costBasis
    ∧ (withdrawOp amount st).2.portfolio.strategy = st.portfolio.strategy
    ∧ (withdrawOp amount st).2.portfolio.dcaPoolBalance
        = st.portfolio.dcaPoolBalance
    ∧ (withdrawOp amount st).2.transactions = st.transactions := by
  have h : withdrawOp amount st = (.completed, handleWithdraw amount st) := by
    simp [withdrawOp, hs, hstrict]
  rw [h]
  refine ⟨rfl, ?_, rfl, rfl, rfl, rfl, rfl, rfl⟩
  show max 0 (st.portfolio.portfolio.totalValue - amount) = 0
  exact max_eq_left (by linarith)

/-- Witness for the amended C5 at the non-strict state, amount 200. -/
theorem withdraw_overdraw_clamps_witness :
    stLoose.portfolio.strategy = some stratLoose
    ∧ stratLoose.strictMode = false
    ∧ stLoose.portfolio.portfolio.totalValue < 200
    ∧ ((withdrawOp 200 stLoose).1 = .completed
      ∧ (withdrawOp 200 stLoose).2.portfolio.portfolio.totalValue = 0) :=
  ⟨by with_unfolding_all decide, by with_unfolding_all decide,
    by with_unfolding_all decide,
    ⟨(withdraw_overdraw_clamps 200 stLoose stratLoose
        (by with_unfolding_all decide) (by with_unfolding_all decide)
        (by with_unfolding_all decide)).1,
     (withdraw_overdraw_clamps 200 stLoose stratLoose
        (by with_unfolding_all decide) (by with_unfolding_all decide)
        (by with_unfolding_all decide)).2.1⟩⟩

/-- C4 fails as stated: after one funded tick from the freshly activated
SafeStack state, the stored `totalValue` is the rounded sum 100 while the
exact sum of the `holdingsValue` entries is 100.1; and a non-strict
withdraw changes `totalValue` without touching `holdingsValue` at all. -/
theorem totalValue_sum_counterexample :
    stTicked.portfolio.portfolio.totalValue = 100
    ∧ valuesSum stTicked.portfolio.portfolio.holdingsValue = 1001/10
    ∧ stTicked.portfolio.portfolio.totalValue
        ≠ valuesSum stTicked.portfolio.portfolio.holdingsValue := by
  refine ⟨by with_unfolding_all decide, by with_unfolding_all decide,
    by with_unfolding_all decide⟩

/-- C4 amended: after every funded `applyWeeklyTick` the stored
`totalValue` equals the JavaScript-rounded (`Math.round`) sum of the
per-asset `holdingsValue` entries — not the exact sum — and the withdraw
handler rewrites `totalValue` while leaving `holdingsValue` untouched, so
the (rounded) equality is not preserved across withdrawals. -/
theorem totalValue_is_roundedSum (slip drift : String → ℚ) (tx : String)
    (now : SimDate) (st : AppState) (s : StrategyState)
    (hs : st.portfolio.strategy = some s)
    (hge : s.weeklyAmount ≤ st.portfolio.dcaPoolBalance) :
    (handleSimulateWeek slip drift tx now st).2.portfolio.portfolio.totalValue
      = roundJS (valuesSum (handleSimulateWeek slip drift tx now st).2.portfolio.portfolio.holdingsValue)
    ∧ ∀ amount : ℚ,
        (handleWithdraw amount (handleSimulateWeek slip drift tx now st).2).portfolio.portfolio.holdingsValue
          = (handleSimulateWeek slip drift tx now st).2.portfolio.portfolio.holdingsValue := by
  rw [handleSimulateWeek_of_funded slip drift tx now st s hs hge]
  exact ⟨tickNewState_totalValue slip drift tx now st s, fun _ => rfl⟩

/-- Witness for the amended C4 at the freshly activated SafeStack state. -/
theorem totalValue_is_roundedSum_witness :
    stActive.portfolio.strategy = some stratSafe0
    ∧ stratSafe0.weeklyAmount ≤ stActive.portfolio.dcaPoolBalance
    ∧ (stTicked.portfolio.portfolio.totalValue
        = roundJS (valuesSum stTicked.portfolio.portfolio.holdingsValue)
      ∧ ∀ amount : ℚ,
          (handleWithdraw amount stTicked).portfolio.portfolio.holdingsValue
            = stTicked.portfolio.portfolio.holdingsValue) :=
  ⟨by with_unfolding_all decide, by with_unfolding_all decide,
    totalValue_is_roundedSum slipHalf driftMixed "0xabc" d0 stActive
      stratSafe0 (by with_unfolding_all decide)
      (by with_unfolding_all decide)⟩

/-- One compliant operation keeps the pool nonnegative. -/
theorem applyOp_pool_nonneg (st : AppState) (op : Op)
    (h : 0 ≤ st.portfolio.dcaPoolBalance) (hok : OpOK op) :
    0 ≤ (applyOp st op).portfolio.dcaPoolBalance := by
  cases op with
  | activate config now =>
    have hw : (0:ℚ) ≤ config.weeklyAmount := hok
    show 0 ≤ (handleSetup config now st).portfolio.dcaPoolBalance
    unfold handleSetup
    cases hfind : strategies.find? (fun s => s.id == config.strategyId) with
    | none => exact h
    | some s =>
      show (0:ℚ) ≤ config.weeklyAmount * 5
      nlinarith
  | tick slip drift tx now =>
    show 0 ≤ (handleSimulateWeek slip drift tx now st).2.portfolio.dcaPoolBalance
    cases hs : st.portfolio.strategy with
    | none =>
      simp only [handleSimulateWeek, hs]
      exact h
    | some s =>
      by_cases hlt : st.portfolio.dcaPoolBalance < s.weeklyAmount
      · rw [handleSimulateWeek_of_insufficient slip drift tx now st s hs hlt]
        exact h
      · rw [handleSimulateWeek_of_funded slip drift tx now st s hs
          (not_lt.mp hlt)]
        show 0 ≤ st.portfolio.dcaPoolBalance - s.weeklyAmount
        have := not_lt.mp hlt
        linarith
  | addFunds amount =>
    have ha : (0:ℚ) < amount := hok
    show 0 ≤ st.portfolio.dcaPoolBalance + amount
    linarith

/-- A whole compliant run keeps the pool nonnegative. -/
theorem foldl_applyOp_pool_nonneg (ops : List Op) (st : AppState)
    (h : 0 ≤ st.portfolio.dcaPoolBalance) (hok : ∀ op ∈ ops, OpOK op) :
    0 ≤ (ops.foldl applyOp st).portfolio.dcaPoolBalance := by
  induction ops generalizing st with
  | nil => exact h
  | cons op rest ih =>
    rw [List.foldl_cons]
    exact ih _ (applyOp_pool_nonneg st op h (hok op (List.mem_cons_self _ _)))
      (fun x hx => hok x (List.mem_cons_of_mem _ hx))

/-- C2 fails as stated: `handleSetup` performs no sign check on the weekly
amount, so the one-operation sequence activating SafeStack at -10 GAS a
week seeds `dcaPoolBalance = -50 < 0`. -/
theorem poolNonneg_counterexample :
    (applyOp (initialAppState d0) (Op.activate cfgNeg d0)).portfolio.dcaPoolBalance = -50
    ∧ (applyOp (initialAppState d0) (Op.activate cfgNeg d0)).portfolio.dcaPoolBalance < 0 := by
  refine ⟨by with_unfolding_all decide, by with_unfolding_all decide⟩

/-- C2 amended: a tick with `dcaPoolBalance < weeklyAmount` is refused
with no mutation at all; a completed tick debits the pool by exactly
`weeklyAmount`; and the pool never becomes negative under any sequence of
`activateStrategy` with nonnegative weekly amount, `applyWeeklyTick`, and
`addFunds` with positive amount, starting from any state with nonnegative
pool. -/
theorem weeklyTick_poolSafety :
    (∀ (slip drift : String → ℚ) (tx : String) (now : SimDate)
        (st : AppState) (s : StrategyState),
        st.portfolio.strategy = some s →
        st.portfolio.dcaPoolBalance < s.weeklyAmount →
        handleSimulateWeek slip drift tx now st = (.insufficientFunds, st))
    ∧ (∀ (slip drift : String → ℚ) (tx : String) (now : SimDate)
        (st : AppState) (s : StrategyState) (m : Option ℕ) (st' : AppState),
        st.portfolio.strategy = some s →
        handleSimulateWeek slip drift tx now st = (.ok m, st') →
        st'.portfolio.dcaPoolBalance
          = st.portfolio.dcaPoolBalance - s.weeklyAmount)
    ∧ (∀ (st : AppState) (ops : List Op),
        0 ≤ st.portfolio.dcaPoolBalance → (∀ op ∈ ops, OpOK op) →
        0 ≤ (ops.foldl applyOp st).portfolio.dcaPoolBalance) := by
  refine ⟨handleSimulateWeek_of_insufficient, ?_,
    fun st ops h hok => foldl_applyOp_pool_nonneg ops st h hok⟩
  intro slip drift tx now st s m st' hs heq
  by_cases hlt : st.portfolio.dcaPoolBalance < s.weeklyAmount
  · rw [handleSimulateWeek_of_insufficient slip drift tx now st s hs hlt]
      at heq
    cases heq
  · rw [handleSimulateWeek_of_funded slip drift tx now st s hs
      (not_lt.mp hlt)] at heq
    cases heq
    rfl

/-- Witness for the amended C2: the refusal at the underfunded state, the
exact debit at the funded state, and a compliant three-operation run. -/
theorem weeklyTick_poolSafety_witness :
    (stLow.portfolio.strategy = some stratSafe0
      ∧ stLow.portfolio.dcaPoolBalance < stratSafe0.weeklyAmount
      ∧ handleSimulateWeek slipHalf driftMixed "0xdef" d0 stLow
          = (.insufficientFunds, stLow))
    ∧ (stActive.portfolio.strategy = some stratSafe0
      ∧ stTicked.portfolio.dcaPoolBalance
          = stActive.portfolio.dcaPoolBalance - stratSafe0.weeklyAmount)
    ∧ (0 ≤ (initialAppState d0).portfolio.dcaPoolBalance
      ∧ 0 ≤ ([Op.activate cfgSafe d0,
              Op.tick slipHalf driftMixed "0xabc" d0,
              Op.addFunds 300].foldl applyOp
            (initialAppState d0)).portfolio.dcaPoolBalance) := by
  refine ⟨⟨by with_unfolding_all decide, by with_unfolding_all decide,
      weeklyTick_poolSafety.1 slipHalf driftMixed "0xdef" d0 stLow stratSafe0
        (by with_unfolding_all decide) (by with_unfolding_all decide)⟩,
    ⟨by with_unfolding_all decide,
      weeklyTick_poolSafety.2.1 slipHalf driftMixed "0xabc" d0 stActive
        stratSafe0 none stTicked (by with_unfolding_all decide)
        (Prod.ext (by with_unfolding_all decide) rfl)⟩,
    by with_unfolding_all decide,
    weeklyTick_poolSafety.2.2 (initialAppState d0)
      [Op.activate cfgSafe d0, Op.tick slipHalf driftMixed "0xabc" d0,
       Op.addFunds 300] (by with_unfolding_all decide) ?_⟩
  intro op hop
  simp only [List.mem_cons, List.not_mem_nil, or_false] at hop
  rcases hop with rfl | rfl | rfl
  · show (0:ℚ) ≤ 100
    norm_num
  · exact trivial
  · show (0:ℚ) < 300
    norm_num

/-! ### Milestone lemmas -/

theorem effectiveTotalWeeks_pos (tw : Option ℕ) :
    1 ≤ effectiveTotalWeeks tw := by
  cases tw with
  | none => norm_num [effectiveTotalWeeks]
  | some n =>
    by_cases h : n = 0 <;> simp [effectiveTotalWeeks, h]
    omega

theorem milestoneFor_eq_25_iff (w : ℕ) (tw : Option ℕ) :
    milestoneFor w tw = some 25
      ↔ 25 ≤ progressPct w tw ∧ progressPct w tw < 26 := by
  constructor
  · intro h
    unfold milestoneFor at h
    split_ifs at h with h1 h2 h3 h4 <;> simp_all
  · intro hp
    unfold milestoneFor
    rw [if_pos hp]

theorem milestoneFor_eq_50_iff (w : ℕ) (tw : Option ℕ) :
    milestoneFor w tw = some 50
      ↔ 50 ≤ progressPct w tw ∧ progressPct w tw < 51 := by
  constructor
  · intro h
    unfold milestoneFor at h
    split_ifs at h with h1 h2 h3 h4 <;> simp_all
  · intro hp
    have h1 : ¬ (25 ≤ progressPct w tw ∧ progressPct w tw < 26) := by
      rintro ⟨_, hb⟩
      linarith [hp.1]
    unfold milestoneFor
    rw [if_neg h1, if_pos hp]

theorem milestoneFor_eq_75_iff (w : ℕ) (tw : Option ℕ) :
    milestoneFor w tw = some 75
      ↔ 75 ≤ progressPct w tw ∧ progressPct w tw < 76 := by
  constructor
  · intro h
    unfold milestoneFor at h
    split_ifs at h with h1 h2 h3 h4 <;> simp_all
  · intro hp
    have h1 : ¬ (25 ≤ progressPct w tw ∧ progressPct w tw < 26) := by
      rintro ⟨_, hb⟩
      linarith [hp.1]
    have h2 : ¬ (50 ≤ progressPct w tw ∧ progressPct w tw < 51) := by
      rintro ⟨_, hb⟩
      linarith [hp.1]
    unfold milestoneFor
    rw [if_neg h1, if_neg h2, if_pos hp]

theorem milestoneFor_eq_100_iff (w : ℕ) (tw : Option ℕ) :
    milestoneFor w tw = some 100 ↔ 100 ≤ progressPct w tw := by
  constructor
  · intro h
    unfold milestoneFor at h
    split_ifs at h with h1 h2 h3 h4 <;> simp_all
  · intro hp
    have h1 : ¬ (25 ≤ progressPct w tw ∧ progressPct w tw < 26) := by
      rintro ⟨_, hb⟩
      linarith
    have h2 : ¬ (50 ≤ progressPct w tw ∧ progressPct w tw < 51) := by
      rintro ⟨_, hb⟩
      linarith
    have h3 : ¬ (75 ≤ progressPct w tw ∧ progressPct w tw < 76) := by
      rintro ⟨_, hb⟩
      linarith
    unfold milestoneFor
    rw [if_neg h1, if_neg h2, if_neg h3, if_pos hp]

theorem progressPct_sub (a b : ℕ) (tw : Option ℕ) :
    progressPct b tw - progressPct a tw
      = ((b:ℚ) - (a:ℚ)) * 100 / (effectiveTotalWeeks tw : ℚ) := by
  have h : (0:ℚ) < (effectiveTotalWeeks tw : ℚ) := by
    exact_mod_cast Nat.lt_of_lt_of_le Nat.zero_lt_one
      (effectiveTotalWeeks_pos tw)
  unfold progressPct
  field_simp
  ring

theorem milestone_step_le (T : ℚ) (a b : ℕ) (tw : Option ℕ)
    (hN : effectiveTotalWeeks tw ≤ 100)
    (ha : T ≤ progressPct a tw) (hb : progressPct b tw < T + 1) :
    b ≤ a := by
  by_contra hab
  push_neg at hab
  have hN0 : (0:ℚ) < (effectiveTotalWeeks tw : ℚ) := by
    exact_mod_cast Nat.lt_of_lt_of_le Nat.zero_lt_one
      (effectiveTotalWeeks_pos tw)
  have h1 : (1:ℚ) ≤ (b:ℚ) - (a:ℚ) := by
    have hba : a + 1 ≤ b := hab
    have : ((a:ℚ)) + 1 ≤ (b:ℚ) := by exact_mod_cast hba
    linarith
  have h2 : (1:ℚ) ≤ 100 / (effectiveTotalWeeks tw : ℚ) := by
    rw [le_div_iff₀ hN0]
    have : ((effectiveTotalWeeks tw : ℚ)) ≤ 100 := by exact_mod_cast hN
    linarith
  have h3 : (1:ℚ) ≤ progressPct b tw - progressPct a tw := by
    rw [progressPct_sub, mul_div_assoc]
    nlinarith
  linarith

theorem milestone_unique_aux (T : ℕ) (tw : Option ℕ) (w1 w2 : ℕ)
    (hT : T = 25 ∨ T = 50 ∨ T = 75) (hN : effectiveTotalWeeks tw ≤ 100)
    (h1 : milestoneFor w1 tw = some T) (h2 : milestoneFor w2 tw = some T) :
    w1 = w2 := by
  rcases hT with rfl | rfl | rfl
  · rw [milestoneFor_eq_25_iff] at h1 h2
    exact le_antisymm
      (milestone_step_le 25 w2 w1 tw hN h2.1 (by linarith [h1.2]))
      (milestone_step_le 25 w1 w2 tw hN h1.1 (by linarith [h2.2]))
  · rw [milestoneFor_eq_50_iff] at h1 h2
    exact le_antisymm
      (milestone_step_le 50 w2 w1 tw hN h2.1 (by linarith [h1.2]))
      (milestone_step_le 50 w1 w2 tw hN h1.1 (by linarith [h2.2]))
  · rw [milestoneFor_eq_75_iff] at h1 h2
    exact le_antisymm
      (milestone_step_le 75 w2 w1 tw hN h2.1 (by linarith [h1.2]))
      (milestone_step_le 75 w1 w2 tw hN h1.1 (by linarith [h2.2]))

/-- C6 fails as stated: threshold 100 has no upper window bound, so for
the bounded 52-week strategy it fires on the two distinct ticks 52 and 53
(the latter at roughly 101.9%, outside [100, 101)); and for a bounded
200-week strategy the [25, 26) window contains the two integer weeks 50
and 51, so threshold 25 also fires on two distinct ticks. -/
theorem milestone_counterexample :
    milestoneFor 52 (some 52) = some 100
    ∧ milestoneFor 53 (some 52) = some 100
    ∧ ¬ progressPct 53 (some 52) < 101
    ∧ milestoneFor 50 (some 200) = some 25
    ∧ milestoneFor 51 (some 200) = some 25
    ∧ (50:ℕ) ≠ 51 := by
  refine ⟨by with_unfolding_all decide, by with_unfolding_all decide,
    by with_unfolding_all decide, by with_unfolding_all decide,
    by with_unfolding_all decide, by norm_num⟩

/-- C6 amended: each completed tick raises exactly the milestone computed
by the first-match ascending chain; thresholds 25, 50, 75 fire exactly
when the progress percentage lies in [T, T+1), while threshold 100 fires
exactly when the percentage reaches 100 with no upper bound (so it can
repeat on later ticks); at most one milestone fires per tick; and for
bounded strategies whose effective horizon is at most 100 weeks, the
thresholds 25, 50, 75 each fire on at most one tick. -/
theorem milestone_window_spec :
    (∀ (slip drift : String → ℚ) (tx : String) (now : SimDate)
        (st : AppState) (s : StrategyState) (m : Option ℕ) (st' : AppState),
        st.portfolio.strategy = some s →
        handleSimulateWeek slip drift tx now st = (.ok m, st') →
        m = milestoneFor (s.weeksCompleted + 1) s.totalWeeks)
    ∧ (∀ (w : ℕ) (tw : Option ℕ),
        milestoneFor w tw = some 25
          ↔ 25 ≤ progressPct w tw ∧ progressPct w tw < 26)
    ∧ (∀ (w : ℕ) (tw : Option ℕ),
        milestoneFor w tw = some 50
          ↔ 50 ≤ progressPct w tw ∧ progressPct w tw < 51)
    ∧ (∀ (w : ℕ) (tw : Option ℕ),
        milestoneFor w tw = some 75
          ↔ 75 ≤ progressPct w tw ∧ progressPct w tw < 76)
    ∧ (∀ (w : ℕ) (tw : Option ℕ),
        milestoneFor w tw = some 100 ↔ 100 ≤ progressPct w tw)
    ∧ (∀ (T : ℕ) (tw : Option ℕ) (w1 w2 : ℕ),
        (T = 25 ∨ T = 50 ∨ T = 75) → effectiveTotalWeeks tw ≤ 100 →
        milestoneFor w1 tw = some T → milestoneFor w2 tw = some T →
        w1 = w2) := by
  refine ⟨?_, milestoneFor_eq_25_iff, milestoneFor_eq_50_iff,
    milestoneFor_eq_75_iff, milestoneFor_eq_100_iff,
    fun T tw w1 w2 hT hN h1 h2 =>
      milestone_unique_aux T tw w1 w2 hT hN h1 h2⟩
  intro slip drift tx now st s m st' hs heq
  by_cases hlt : st.portfolio.dcaPoolBalance < s.weeklyAmount
  · rw [handleSimulateWeek_of_insufficient slip drift tx now st s hs hlt]
      at heq
    cases heq
  · rw [handleSimulateWeek_of_funded slip drift tx now st s hs
      (not_lt.mp hlt)] at heq
    cases heq
    rfl

/-- Witness for the amended C6: week 13 of 52 sits in [25, 26) and fires
the 25% milestone. -/
theorem milestone_window_spec_witness :
    (25 ≤ progressPct 13 (some 52) ∧ progressPct 13 (some 52) < 26)
    ∧ milestoneFor 13 (some 52) = some 25 :=
  ⟨⟨by with_unfolding_all decide, by with_unfolding_all decide⟩,
    (milestone_window_spec.2.1 13 (some 52)).mpr
      ⟨by with_unfolding_all decide, by with_unfolding_all decide⟩⟩

/-! ### Setup lemmas -/

theorem getNextMonday_spec (now : SimDate) :
    (getNextMonday now).getDay = 1
    ∧ now.days < (getNextMonday now).days
    ∧ (getNextMonday now).days ≤ now.days + 7
    ∧ (getNextMonday now).msOfDay = 9 * 60 * 60 * 1000 := by
  simp only [getNextMonday, SimDate.getDay]
  refine ⟨?_, ?_, ?_, trivial⟩ <;> split_ifs with h <;> omega

theorem handleSetup_of_found (config : SetupConfig) (now : SimDate)
    (st : AppState) (strat : Strategy)
    (hfind : strategies.find? (fun s => s.id == config.strategyId)
        = some strat) :
    handleSetup config now st =
      { portfolio :=
          { hasStrategy := true,
            strategy := some
              { id := strat.id, name := strat.name,
                creator := strat.creator,
                allocation := strat.allocation,
                weeklyAmount := config.weeklyAmount, weeksCompleted := 0,
                totalWeeks := config.duration,
                strictMode := config.strictMode },
            portfolio := emptyInner,
            nextDCA := getNextMonday now,
            dcaPoolBalance := config.weeklyAmount * 5 },
        transactions := st.transactions } := by
  unfold handleSetup
  rw [hfind]

/-- C7 fails in its ledger clause: re-activating a strategy over a state
with a non-empty transaction ledger keeps the old transactions in place —
`handleSetup` never clears the ledger, so the prior engine state is not
entirely replaced. -/
theorem setup_reset_counterexample :
    stTicked.transactions ≠ []
    ∧ (handleSetup cfgSafe d0 stTicked).transactions
        = stTicked.transactions :=
  ⟨by with_unfolding_all decide, rfl⟩

/-- C7 amended: for every prior state, activation with a known catalog
entry replaces the whole `portfolio` state — planted strategy with
`weeksCompleted = 0`, empty holdings maps with zero totalValue, costBasis
and profitLoss, a pool seeded at `weeklyAmount * 5`, and a next-tick
timestamp at the following Monday 09:00 local time — but the transaction
ledger is left untouched, so the reset-and-reinit does not extend to the
ledger. -/
theorem setup_reinitializes (config : SetupConfig) (now : SimDate)
    (st : AppState) (strat : Strategy)
    (hfind : strategies.find? (fun s => s.id == config.strategyId)
        = some strat) :
    (handleSetup config now st).portfolio.strategy
        = some { id := strat.id, name := strat.name,
                 creator := strat.creator,
                 allocation := strat.allocation,
                 weeklyAmount := config.weeklyAmount, weeksCompleted := 0,
                 totalWeeks := config.duration,
                 strictMode := config.strictMode }
    ∧ (handleSetup config now st).portfolio.portfolio = emptyInner
    ∧ (handleSetup config now st).portfolio.portfolio.holdings = []
    ∧ (handleSetup config now st).portfolio.portfolio.holdingsValue = []
    ∧ (handleSetup config now st).portfolio.portfolio.totalValue = 0
    ∧ (handleSetup config now st).portfolio.portfolio.costBasis = 0
    ∧ (handleSetup config now st).portfolio.portfolio.profitLoss = 0
    ∧ (handleSetup config now st).portfolio.dcaPoolBalance
        = config.weeklyAmount * 5
    ∧ (handleSetup config now st).portfolio.nextDCA = getNextMonday now
    ∧ (getNextMonday now).getDay = 1
    ∧ now.days < (getNextMonday now).days
    ∧ (getNextMonday now).days ≤ now.days + 7
    ∧ (getNextMonday now).msOfDay = 9 * 60 * 60 * 1000
    ∧ (handleSetup config now st).portfolio.hasStrategy = true
    ∧ (handleSetup config now st).transactions = st.transactions := by
  rw [handleSetup_of_found config now st strat hfind]
  have hm := getNextMonday_spec now
  exact ⟨rfl, rfl, rfl, rfl, rfl, rfl, rfl, rfl, rfl, hm.1, hm.2.1,
    hm.2.2.1, hm.2.2.2, rfl, rfl⟩

/-- Witness for the amended C7: re-activating SafeStack over the ticked
state resets the portfolio but keeps the ledger. -/
theorem setup_reinitializes_witness :
    strategies.find? (fun s => s.id == cfgSafe.strategyId)
        = some { id := "safestack", name := "SafeStack",
                 creator := "CryptoSara", username := "@cryptosara",
                 followers := "2.4k", bio := "Conservative long-term DCA",
                 avatar := "s",
                 allocation := [("BTC", 50), ("ETH", 30), ("USDC", 20)],
                 return12mo := 42, riskLevel := "Low", winRate := 89 }
    ∧ ((handleSetup cfgSafe d0 stTicked).portfolio.dcaPoolBalance
        = cfgSafe.weeklyAmount * 5
      ∧ (handleSetup cfgSafe d0 stTicked).transactions
          = stTicked.transactions) :=
  ⟨by with_unfolding_all decide,
    (setup_reinitializes cfgSafe d0 stTicked
        { id := "safestack", name := "SafeStack", creator := "CryptoSara",
          username := "@cryptosara", followers := "2.4k",
          bio := "Conservative long-term DCA", avatar := "s",
          allocation := [("BTC", 50), ("ETH", 30), ("USDC", 20)],
          return12mo := 42, riskLevel := "Low", winRate := 89 }
        (by with_unfolding_all decide)).2.2.2.2.2.2.2.1,
    (setup_reinitializes cfgSafe d0 stTicked
        { id := "safestack", name := "SafeStack", creator := "CryptoSara",
          username := "@cryptosara", followers := "2.4k",
          bio := "Conservative long-term DCA", avatar := "s",
          allocation := [("BTC", 50), ("ETH", 30), ("USDC", 20)],
          return12mo := 42, riskLevel := "Low", winRate := 89 }
        (by with_unfolding_all decide)).2.2.2.2.2.2.2.2.2.2.2.2.2.2⟩

/-- C8 fails in its amount clause: `handleSetup` performs no validation of
`weeklyAmount`, so a request with the known id "safestack" and weekly
amount 0 (not strictly positive) is accepted and mutates the state. -/
theorem setup_validation_counterexample :
    cfgZero.weeklyAmount = 0
    ∧ (handleSetup cfgZero d0 (initialAppState d0)).portfolio.hasStrategy
        = true
    ∧ (initialAppState d0).portfolio.hasStrategy = false
    ∧ handleSetup cfgZero d0 (initialAppState d0) ≠ initialAppState d0 := by
  refine ⟨by with_unfolding_all decide, by with_unfolding_all decide,
    by with_unfolding_all decide, by with_unfolding_all decide⟩

/-- C8 amended: `handleSetup` rejects — silently, before any state change,
leaving the prior state fully unchanged — every request whose strategyId
is not in the static catalog; it performs no validation of `weeklyAmount`,
so requests with known catalog ids are accepted and initialize the state
for every weekly amount, including non-positive ones. -/
theorem setup_rejects_unknown_id :
    (∀ (config : SetupConfig) (now : SimDate) (st : AppState),
        strategies.find? (fun s => s.id == config.strategyId) = none →
        handleSetup config now st = st)
    ∧ (∀ (config : SetupConfig) (now : SimDate) (st : AppState)
        (strat : Strategy),
        strategies.find? (fun s => s.id == config.strategyId)
            = some strat →
        (handleSetup config now st).portfolio.hasStrategy = true
        ∧ ∃ s', (handleSetup config now st).portfolio.strategy = some s'
            ∧ s'.weeklyAmount = config.weeklyAmount) := by
  constructor
  · intro config now st hfind
    unfold handleSetup
    rw [hfind]
  · intro config now st strat hfind
    rw [handleSetup_of_found config now st strat hfind]
    exact ⟨rfl, _, rfl, rfl⟩

/-- Witness for the amended C8: the unknown id "degenyolo" is refused with
the state unchanged, while the zero-amount request on "safestack" is
accepted. -/
theorem setup_rejects_unknown_id_witness :
    strategies.find? (fun s => s.id == cfgUnknown.strategyId) = none
    ∧ handleSetup cfgUnknown d0 stActive = stActive
    ∧ ((handleSetup cfgZero d0 (initialAppState d0)).portfolio.hasStrategy
          = true
      ∧ ∃ s', (handleSetup cfgZero d0 (initialAppState d0)).portfolio.strategy = some s'
          ∧ s'.weeklyAmount = cfgZero.weeklyAmount) :=
  ⟨by with_unfolding_all decide,
    setup_rejects_unknown_id.1 cfgUnknown d0 stActive
      (by with_unfolding_all decide),
    setup_rejects_unknown_id.2 cfgZero d0 (initialAppState d0)
      { id := "safestack", name := "SafeStack", creator := "CryptoSara",
        username := "@cryptosara", followers := "2.4k",
        bio := "Conservative long-term DCA", avatar := "s",
        allocation := [("BTC", 50), ("ETH", 30), ("USDC", 20)],
        return12mo := 42, riskLevel := "Low", winRate := 89 }
      (by with_unfolding_all decide)⟩

/-- C9: in every funded tick, for every asset of the active allocation
(whose shares are nonnegative, as every catalog allocation is) and every
value of the per-coin slippage draw in [0, 1), the derived execution price
lies within ±5% of the asset's reference price, the per-asset contribution
is `weeklyAmount * allocationPercent / 100`, the quantity added to
`holdings[asset]` is exactly `contribution / executionPrice`, and every
holdings entry is monotonically non-decreasing across the tick. -/
theorem weeklyTick_perAsset (slip drift : String → ℚ) (tx : String)
    (now : SimDate) (st : AppState) (s : StrategyState) (coin : String)
    (pct : ℚ) (hs : st.portfolio.strategy = some s)
    (hge : s.weeklyAmount ≤ st.portfolio.dcaPoolBalance)
    (hw : 0 ≤ s.weeklyAmount)
    (hnd : (s.allocation.map Prod.fst).Nodup)
    (hmem : (coin, pct) ∈ s.allocation)
    (hok : ∀ e ∈ s.allocation,
        0 ≤ e.2 ∧ 0 ≤ slip e.1 ∧ slip e.1 < 1) :
    95/100 * jsPrice coin
        ≤ jsPrice coin * (1 + (slip coin - 1/2) * (1/10))
    ∧ jsPrice coin * (1 + (slip coin - 1/2) * (1/10))
        ≤ 105/100 * jsPrice coin
    ∧ getD (handleSimulateWeek slip drift tx now st).2.portfolio.portfolio.holdings coin
        = getD st.portfolio.portfolio.holdings coin
          + (s.weeklyAmount * (pct / 100))
            / (jsPrice coin * (1 + (slip coin - 1/2) * (1/10)))
    ∧ ∀ k, getD st.portfolio.portfolio.holdings k
        ≤ getD (handleSimulateWeek slip drift tx now st).2.portfolio.portfolio.holdings k := by
  have hcoin := hok (coin, pct) hmem
  refine ⟨execPrice_lower coin (slip coin) hcoin.2.1,
    execPrice_upper coin (slip coin) hcoin.2.2, ?_, ?_⟩
  · rw [handleSimulateWeek_of_funded slip drift tx now st s hs hge,
      tickNewState_holdings]
    exact foldl_buyStep_fst_of_mem s.weeklyAmount slip drift s.allocation
      _ coin pct hnd hmem
  · intro k
    rw [handleSimulateWeek_of_funded slip drift tx now st s hs hge,
      tickNewState_holdings]
    exact foldl_buyStep_fst_mono s.weeklyAmount slip drift s.allocation _
      hw (fun e he => ⟨(hok e he).1, (hok e he).2.1⟩) k

/-- Witness for C9 at the freshly activated SafeStack state: BTC with a
50% share and a slippage draw of one half. -/
theorem weeklyTick_perAsset_witness :
    (stActive.portfolio.strategy = some stratSafe0
      ∧ stratSafe0.weeklyAmount ≤ stActive.portfolio.dcaPoolBalance
      ∧ (0:ℚ) ≤ stratSafe0.weeklyAmount
      ∧ (stratSafe0.allocation.map Prod.fst).Nodup
      ∧ ("BTC", (50:ℚ)) ∈ stratSafe0.allocation)
    ∧ (95/100 * jsPrice "BTC"
          ≤ jsPrice "BTC" * (1 + (slipHalf "BTC" - 1/2) * (1/10))
      ∧ jsPrice "BTC" * (1 + (slipHalf "BTC" - 1/2) * (1/10))
          ≤ 105/100 * jsPrice "BTC"
      ∧ getD stTicked.portfolio.portfolio.holdings "BTC"
          = getD stActive.portfolio.portfolio.holdings "BTC"
            + (stratSafe0.weeklyAmount * (50 / 100))
              / (jsPrice "BTC" * (1 + (slipHalf "BTC" - 1/2) * (1/10)))
      ∧ ∀ k, getD stActive.portfolio.portfolio.holdings k
          ≤ getD stTicked.portfolio.portfolio.holdings k) :=
  ⟨⟨by with_unfolding_all decide, by with_unfolding_all decide,
    by with_unfolding_all decide, by with_unfolding_all decide,
    by with_unfolding_all decide⟩,
   weeklyTick_perAsset slipHalf driftMixed "0xabc" d0 stActive stratSafe0
     "BTC" 50 (by with_unfolding_all decide) (by with_unfolding_all decide)
     (by with_unfolding_all decide) (by with_unfolding_all decide)
     (by with_unfolding_all decide) (by with_unfolding_all decide)⟩

end Savvy
